import Mathlib

/-!
Verification development for the drawcustom icon element handlers
(`drawcustom/elements/icons.py`): the MDI icon index, the icon rasterizer,
and the `icon` / `icon_sequence` element handlers.

Python machine-level conventions used by the embedding:
* a Python `dict[str, str]` is embedded as a function `String → Option String`,
  with later insertions overriding earlier ones;
* Python string truthiness (`if name and codepoint`) is `≠ ""` on present
  values, false on `None`;
* every exception raised by the embedded code is a `ValueError` carrying its
  message, embedded as `PyErr.valueError`;
* `size // 2` on a non-negative Python int is `Nat` division.
-/

namespace DrawCustom

abbrev RGBA := Nat × Nat × Nat × Nat

abbrev StrMap := String → Option String

def emptyMap : StrMap := fun _ => none

def insertKV (m : StrMap) (k v : String) : StrMap :=
  fun q => if q = k then some v else m q

/-- One record of the MDI metadata JSON: `name`, `codepoint`, `aliases`.
Fields may be missing (`none`); `aliases` entries may be falsy (`""`). -/
structure MdiRecord where
  name : Option String
  codepoint : Option String
  aliases : List String
deriving DecidableEq, Repr

/-- The alias loop of `_get_mdi_index`: `for alias in icon.get("aliases", []):
if alias: _mdi_index[alias] = codepoint`. -/
def aliasFold (cp : String) (m : StrMap) (aliases : List String) : StrMap :=
  aliases.foldl (fun acc a => if a = "" then acc else insertKV acc a cp) m

/-- One iteration of the index-building loop of `_get_mdi_index`:
`if name and codepoint: _mdi_index[name] = codepoint; for alias in ...`. -/
def insertRecord (m : StrMap) (r : MdiRecord) : StrMap :=
  match r.name, r.codepoint with
  | some name, some cp =>
    if name = "" ∨ cp = "" then m
    else aliasFold cp (insertKV m name cp) r.aliases
  | _, _ => m

/-- The index built by `_get_mdi_index` from the loaded metadata. -/
def buildIndex (metadata : List MdiRecord) : StrMap :=
  metadata.foldl insertRecord emptyMap

/-- The keys a record inserts into the index (empty for skipped records). -/
def recordKeys (r : MdiRecord) : List String :=
  match r.name, r.codepoint with
  | some name, some cp =>
    if name = "" ∨ cp = "" then []
    else name :: r.aliases.filter (fun a => a ≠ "")
  | _, _ => []

/-- Whether `_get_mdi_index` indexes this record (`if name and codepoint`). -/
def goodRecordB (r : MdiRecord) : Bool :=
  match r.name, r.codepoint with
  | some name, some cp => if name = "" ∨ cp = "" then false else true
  | _, _ => false

/-- Python exceptions raised by the icons module: all are `ValueError`. -/
inductive PyErr where
  | valueError (msg : String)
deriving DecidableEq, Repr

/-- External assets of the icons module: the metadata JSON source (which may
fail to load/parse with a message) and the MDI font file. -/
structure IconEnv where
  metadata : Except String (List MdiRecord)
  fontOk : Bool
  fontErr : String

/-- Result of one `_get_mdi_index()` call: the returned value or error, the
module-level `_mdi_index` cache afterwards, and whether the metadata source
was read during the call. -/
structure IndexFetch where
  result : Except PyErr StrMap
  cache : Option StrMap
  loaderInvoked : Bool

/-- `_get_mdi_index`: return the cached index if present, otherwise load the
metadata (raising `ValueError` on failure) and build the index. -/
def getMdiIndex (env : IconEnv) (cache : Option StrMap) : IndexFetch :=
  match cache with
  | some idx => ⟨.ok idx, some idx, false⟩
  | none =>
    match env.metadata with
    | .error err =>
      ⟨.error (.valueError ("Failed to load MDI metadata: " ++ err)), none, true⟩
    | .ok md =>
      let idx := buildIndex md
      ⟨.ok idx, some idx, true⟩

/-- `if name.startswith("mdi:"): name = name[4:]`. -/
def stripMdi (name : String) : String :=
  match name.data with
  | 'm' :: 'd' :: 'i' :: ':' :: rest => ⟨rest⟩
  | _ => name

def hexDigitVal (c : Char) : Option Nat :=
  if '0' ≤ c ∧ c ≤ '9' then some (c.toNat - '0'.toNat)
  else if 'a' ≤ c ∧ c ≤ 'f' then some (c.toNat - 'a'.toNat + 10)
  else if 'A' ≤ c ∧ c ≤ 'F' then some (c.toNat - 'A'.toNat + 10)
  else none

/-- `int(s, 16)` on the plain hex strings used as MDI codepoints. -/
def parseHex (s : String) : Option Nat :=
  match s.data with
  | [] => none
  | l => l.foldl
      (fun acc c =>
        match acc, hexDigitVal c with
        | some a, some d => some (a * 16 + d)
        | _, _ => none)
      (some 0)

/-- `chr(int(codepoint, 16))`: hex parse plus the `chr` range bound; `none`
models the `ValueError` caught by `_render_mdi_icon`. -/
def charFromHex (s : String) : Option Nat :=
  match parseHex s with
  | some n => if n ≤ 0x10FFFF then some n else none
  | none => none

/-- The rasterized icon image produced by `_render_mdi_icon`: a `size×size`
transparent canvas with one glyph (of codepoint `char`) drawn in `color`. -/
structure Glyph where
  char : Nat
  size : Nat
  color : RGBA
deriving DecidableEq, Repr

/-- Result of `_render_mdi_icon` plus the `_mdi_index` cache afterwards. -/
structure RenderOut where
  result : Except PyErr Glyph
  cache : Option StrMap

/-- The icon-not-found `ValueError` message of `_render_mdi_icon`, built
from the (already stripped) icon name. -/
def notFoundMsg (name : String) : String :=
  "Icon \x27" ++ name ++
    "\x27 not found. Search icons at https://pictogrammers.com/library/mdi/"

/-- `_render_mdi_icon(name, size, color)`. -/
def renderMdiIcon (env : IconEnv) (cache : Option StrMap) (name : String)
    (size : Nat) (color : RGBA) : RenderOut :=
  let name := stripMdi name
  let fetch := getMdiIndex env cache
  match fetch.result with
  | .error err => ⟨.error err, fetch.cache⟩
  | .ok index =>
    match index name with
    | none => ⟨.error (.valueError (notFoundMsg name)), fetch.cache⟩
    | some cp =>
      if cp = "" then
        ⟨.error (.valueError (notFoundMsg name)), fetch.cache⟩
      else
        match charFromHex cp with
        | none =>
          ⟨.error (.valueError ("Invalid codepoint for icon \x27" ++ name ++ "\x27")),
           fetch.cache⟩
        | some n =>
          if env.fontOk then
            ⟨.ok ⟨n, size, color⟩, fetch.cache⟩
          else
            ⟨.error (.valueError ("Failed to load MDI font: " ++ env.fontErr)),
             fetch.cache⟩

/-- One `ctx.img.paste(icon_img, (paste_x, paste_y), icon_img)` call. -/
structure Paste where
  glyph : Glyph
  pos : Int × Int
deriving DecidableEq, Repr

/-- The drawing context: coordinate resolver, color resolver (both external
collaborators, modelled as opaque functions), the canvas (as the list of
paste operations applied to it), and the vertical cursor `pos_y`. -/
structure Ctx where
  parseX : Int → Int
  parseY : Int → Int
  resolveColor : String → RGBA
  img : List Paste
  posY : Int

/-- An `icon` element dictionary (required fields plus the optional ones the
handler reads); `x`/`y` are raw coordinate tokens for the resolver. -/
structure IconElement where
  x : Int
  y : Int
  value : String
  size : Nat
  color : Option String
  fill : Option String
  anchor : Option String

/-- An `icon_sequence` element dictionary. -/
structure IconSeqElement where
  x : Int
  y : Int
  icons : List String
  size : Nat
  spacing : Option Int
  color : Option String
  fill : Option String
  anchor : Option String
  direction : Option String

/-- `element.get("color") or element.get("fill", "black")`: Python `or`
falls through on a falsy (absent, or empty-string) `color` value. -/
def colorToken (color fill : Option String) : String :=
  match color with
  | some c => if c = "" then fill.getD "black" else c
  | none => fill.getD "black"

/-- Modelled from the spec: the color precedence of section 4.7 taken
literally — the `color` field when present, otherwise the `fill` field when
present, otherwise "black". -/
def specColorToken (color fill : Option String) : String :=
  match color with
  | some c => c
  | none =>
    match fill with
    | some f => f
    | none => "black"

/-- The nine anchor tags of the spec's section 4.4 table. -/
inductive SpecAnchor where
  | middleMiddle | topLeft | topRight | bottomLeft | bottomRight
  | topMiddle | bottomMiddle | leftMiddle | rightMiddle
deriving DecidableEq, Repr

/-- The string tag used by elements for each spec anchor. -/
def specAnchorTag : SpecAnchor → String
  | .middleMiddle => "mm"
  | .topLeft => "tl"
  | .topRight => "tr"
  | .bottomLeft => "bl"
  | .bottomRight => "br"
  | .topMiddle => "mt"
  | .bottomMiddle => "mb"
  | .leftMiddle => "lm"
  | .rightMiddle => "rm"

/-- Modelled from the spec: the paste-origin table of section 4.4, with all
halving as floor division. -/
def specPasteOrigin (a : SpecAnchor) (x y : Int) (w h : Nat) : Int × Int :=
  match a with
  | .middleMiddle => (x - ((w / 2 : Nat) : Int), y - ((h / 2 : Nat) : Int))
  | .topLeft => (x, y)
  | .topRight => (x - (w : Int), y)
  | .bottomLeft => (x, y - (h : Int))
  | .bottomRight => (x - (w : Int), y - (h : Int))
  | .topMiddle => (x - ((w / 2 : Nat) : Int), y)
  | .bottomMiddle => (x - ((w / 2 : Nat) : Int), y - (h : Int))
  | .leftMiddle => (x, y - ((h / 2 : Nat) : Int))
  | .rightMiddle => (x - (w : Int), y - ((h / 2 : Nat) : Int))

/-- The anchor if/elif chain of `draw_icon`, returning the paste origin and
the warnings logged (nonempty exactly on the unknown-anchor fallback). -/
def pasteOriginIcon (anchor : String) (x y : Int) (size : Nat) :
    (Int × Int) × List String :=
  let s : Int := (size : Int)
  let h : Int := ((size / 2 : Nat) : Int)
  if anchor = "mm" then ((x - h, y - h), [])
  else if anchor = "tl" then ((x, y), [])
  else if anchor = "tr" then ((x - s, y), [])
  else if anchor = "bl" then ((x, y - s), [])
  else if anchor = "br" then ((x - s, y - s), [])
  else if anchor = "mt" then ((x - h, y), [])
  else if anchor = "mb" then ((x - h, y - s), [])
  else if anchor = "lm" then ((x, y - h), [])
  else if anchor = "rm" then ((x - s, y - h), [])
  else ((x, y), ["Unknown anchor \x27" ++ anchor ++ "\x27, using top-left"])

/-- `draw_icon(ctx, element)`: returns the raised error or the updated
context, the `_mdi_index` cache afterwards, and the warnings logged. -/
def drawIcon (env : IconEnv) (cache : Option StrMap) (ctx : Ctx)
    (e : IconElement) : Except PyErr Ctx × Option StrMap × List String :=
  let x := ctx.parseX e.x
  let y := ctx.parseY e.y
  let size := e.size
  let color := ctx.resolveColor (colorToken e.color e.fill)
  let anchor := e.anchor.getD "mm"
  let res := renderMdiIcon env cache e.value size color
  match res.result with
  | .error err => (.error err, res.cache, [])
  | .ok glyph =>
    let po := pasteOriginIcon anchor x y size
    (.ok { ctx with
            img := ctx.img ++ [⟨glyph, po.1⟩],
            posY := po.1.2 + (size : Int) },
     res.cache, po.2)

/-- Loop state of `draw_icon_sequence`: cache, canvas, warnings logged so
far, the cursor `(current_x, current_y)` and the bounds `(max_x, max_y)`. -/
structure SeqState where
  cache : Option StrMap
  img : List Paste
  warnings : List String
  curX : Int
  curY : Int
  maxX : Int
  maxY : Int

/-- The anchor branch inside the `draw_icon_sequence` loop: only `"mm"` and
`"tl"` are distinguished; anything else pastes at the cursor (top-left). -/
def seqPasteOrigin (anchor : String) (x y : Int) (size : Nat) : Int × Int :=
  if anchor = "mm" then (x - ((size / 2 : Nat) : Int), y - ((size / 2 : Nat) : Int))
  else if anchor = "tl" then (x, y)
  else (x, y)

/-- The direction if/elif chain advancing the cursor by `step`. -/
def seqAdvance (direction : String) (x y : Int) (step : Int) : Int × Int :=
  if direction = "right" then (x + step, y)
  else if direction = "left" then (x - step, y)
  else if direction = "down" then (x, y + step)
  else if direction = "up" then (x, y - step)
  else (x, y)

/-- The warning `draw_icon_sequence` logs when it skips an icon. -/
def skipMsg (name msg : String) : String :=
  "Skipping icon \x27" ++ name ++ "\x27: " ++ msg

/-- One iteration of the `draw_icon_sequence` loop: render the icon, on
`ValueError` log a skip warning and continue, otherwise paste it, track the
bounds and advance the cursor. -/
def seqStep (env : IconEnv) (size : Nat) (spacing : Int) (color : RGBA)
    (anchor direction : String) (st : SeqState) (name : String) : SeqState :=
  let r := renderMdiIcon env st.cache name size color
  match r.result with
  | .error (.valueError msg) =>
    { st with cache := r.cache, warnings := st.warnings ++ [skipMsg name msg] }
  | .ok glyph =>
    let p := seqPasteOrigin anchor st.curX st.curY size
    let newMaxX := max st.maxX (p.1 + (size : Int))
    let newMaxY := max st.maxY (p.2 + (size : Int))
    let c := seqAdvance direction st.curX st.curY ((size : Int) + spacing)
    { cache := r.cache,
      img := st.img ++ [⟨glyph, p⟩],
      warnings := st.warnings,
      curX := c.1, curY := c.2,
      maxX := newMaxX, maxY := newMaxY }

/-- `draw_icon_sequence(ctx, element)`. -/
def drawIconSequence (env : IconEnv) (cache : Option StrMap) (ctx : Ctx)
    (e : IconSeqElement) : Except PyErr Ctx × Option StrMap × List String :=
  let xStart := ctx.parseX e.x
  let yStart := ctx.parseY e.y
  let size := e.size
  let spacing := e.spacing.getD ((size / 4 : Nat) : Int)
  let color := ctx.resolveColor (colorToken e.color e.fill)
  let anchor := e.anchor.getD "mm"
  let direction := e.direction.getD "right"
  let init : SeqState := ⟨cache, ctx.img, [], xStart, yStart, xStart, yStart⟩
  let fin := e.icons.foldl (seqStep env size spacing color anchor direction) init
  (.ok { ctx with img := fin.img, posY := fin.maxY }, fin.cache, fin.warnings)

/-- Canvas of a handler result, when it succeeded. -/
def resImg : Except PyErr Ctx → Option (List Paste)
  | .ok c => some c.img
  | .error _ => none

/-- `pos_y` of a handler result, when it succeeded. -/
def resPosY : Except PyErr Ctx → Option Int
  | .ok c => some c.posY
  | .error _ => none

def charsLead : List Char → List Char → Bool
  | [], _ => true
  | _ :: _, [] => false
  | p :: ps, h :: hs => p == h && charsLead ps hs

def charsRun : List Char → List Char → Bool
  | pat, [] => pat.isEmpty
  | pat, h :: t => charsLead pat (h :: t) || charsRun pat t

/-- `pat` occurs as a contiguous substring of `hay`. -/
def strHasRun (hay pat : String) : Bool := charsRun pat.data hay.data

/-- The module-level `_mdi_index` cache states reachable in a process:
either unset, or the index built from the successfully loaded metadata. -/
def ValidCache (env : IconEnv) (c : Option StrMap) : Prop :=
  c = none ∨ ∃ md, env.metadata = .ok md ∧ c = some (buildIndex md)

/-! Concrete fixtures used by witnesses and counterexamples. -/

def mdHome : MdiRecord := ⟨some "home", some "F02DC", ["house"]⟩

def md0 : List MdiRecord := [mdHome]

def envOk : IconEnv := ⟨.ok md0, true, ""⟩

def envFontBroken : IconEnv := ⟨.ok md0, false, "boom"⟩

def envMetaBroken : IconEnv := ⟨.error "bad json", true, ""⟩

def col0 : RGBA := (0, 0, 0, 255)

def ctx0 : Ctx := ⟨fun v => v, fun v => v, fun _ => col0, [], 0⟩

def g0 : Glyph := ⟨0xF02DC, 9, col0⟩

def mdBad : MdiRecord := ⟨none, some "FFFF", []⟩

def md5 : List MdiRecord := [mdHome, mdBad]

def eIconMM : IconElement := ⟨10, 20, "home", 9, none, none, some "mm"⟩

def eIconXX : IconElement := ⟨3, 5, "home", 9, none, none, some "xx"⟩

def eIconPlain : IconElement := ⟨3, 5, "home", 9, none, none, none⟩

def eSeqOne : IconSeqElement := ⟨3, 5, ["home"], 9, none, none, none, none, none⟩

def eSeqMixed : IconSeqElement :=
  ⟨3, 5, ["home", "nope"], 9, none, none, none, none, none⟩

def eSeqFail : IconSeqElement := ⟨3, 7, ["nope"], 9, none, none, none, none, none⟩

def eSeqDiag : IconSeqElement :=
  ⟨3, 5, ["home", "home"], 9, none, none, none, some "tl", some "diag"⟩

/-! String lemmas for substring occurrence. -/

theorem strDataAppend (a b : String) : (a ++ b).data = a.data ++ b.data := by
  cases a; cases b; rfl

theorem strAppendAssoc (a b c : String) : a ++ b ++ c = a ++ (b ++ c) := by
  cases a; cases b; cases c
  exact congrArg String.mk (List.append_assoc _ _ _)

theorem charsLead_append (p rest : List Char) : charsLead p (p ++ rest) = true := by
  induction p with
  | nil => rfl
  | cons a as ih => simp [charsLead, ih]

theorem charsRun_nilPat (l : List Char) : charsRun [] l = true := by
  cases l <;> simp [charsRun, charsLead, List.isEmpty]

theorem charsRun_here (p rest : List Char) : charsRun p (p ++ rest) = true := by
  cases p with
  | nil => exact charsRun_nilPat rest
  | cons a as =>
    simp only [charsRun, List.cons_append, Bool.or_eq_true]
    exact Or.inl (charsLead_append (a :: as) rest)

theorem charsRun_prepend (pre : List Char) {p l : List Char}
    (h : charsRun p l = true) : charsRun p (pre ++ l) = true := by
  induction pre with
  | nil => exact h
  | cons x xs ih => simp [charsRun, ih]

theorem strHasRun_between (pre mid post : String) :
    strHasRun (pre ++ mid ++ post) mid = true := by
  unfold strHasRun
  rw [strAppendAssoc, strDataAppend, strDataAppend]
  exact charsRun_prepend pre.data (charsRun_here mid.data post.data)

theorem strHasRun_tail (pre mid : String) : strHasRun (pre ++ mid) mid = true := by
  unfold strHasRun
  rw [strDataAppend]
  have h := charsRun_here mid.data []
  rw [List.append_nil] at h
  exact charsRun_prepend pre.data h

theorem notFoundMsg_hasName (n : String) : strHasRun (notFoundMsg n) n = true :=
  strHasRun_between "Icon \x27" n
    "\x27 not found. Search icons at https://pictogrammers.com/library/mdi/"

theorem notFoundMsg_hasHint (n : String) :
    strHasRun (notFoundMsg n) "https://pictogrammers.com/library/mdi/" = true := by
  have h : notFoundMsg n =
      ("Icon \x27" ++ n ++ "\x27 not found. Search icons at ") ++
        "https://pictogrammers.com/library/mdi/" := by
    show ("Icon \x27" ++ n) ++
        ("\x27 not found. Search icons at " ++ "https://pictogrammers.com/library/mdi/") = _
    rw [← strAppendAssoc]
  rw [h]
  exact strHasRun_tail _ _

/-! Cache-state lemmas: the module-level `_mdi_index` cache only ever holds
the index built from the loaded metadata, and a render call behaves like a
fresh-cache call from any such state. -/

theorem renderMdiIcon_validCache {env : IconEnv} {c : Option StrMap}
    (n : String) (s : Nat) (col : RGBA) (h : ValidCache env c) :
    renderMdiIcon env c n s col = renderMdiIcon env none n s col := by
  rcases h with rfl | ⟨md, hmd, rfl⟩
  · rfl
  · simp [renderMdiIcon, getMdiIndex, hmd]

theorem getMdiIndex_cache_valid (env : IconEnv) {c : Option StrMap}
    (h : ValidCache env c) : ValidCache env (getMdiIndex env c).cache := by
  rcases h with rfl | ⟨md, hmd, rfl⟩
  · cases hm : env.metadata with
    | error e => simp [getMdiIndex, hm]; exact Or.inl rfl
    | ok md => simp [getMdiIndex, hm]; exact Or.inr ⟨md, hm, rfl⟩
  · exact Or.inr ⟨md, hmd, rfl⟩

theorem renderMdiIcon_cache (env : IconEnv) (c : Option StrMap) (n : String)
    (s : Nat) (col : RGBA) :
    (renderMdiIcon env c n s col).cache = (getMdiIndex env c).cache := by
  unfold renderMdiIcon
  rcases hres : (getMdiIndex env c).result with err | idx
  · simp [hres]
  · simp only [hres]
    rcases hl : idx (stripMdi n) with _ | cp
    · rfl
    · simp only []
      split
      · rfl
      · rcases hc : charFromHex cp with _ | ch
        · rfl
        · simp only []
          split <;> rfl

theorem renderMdiIcon_cache_valid (env : IconEnv) {c : Option StrMap}
    (n : String) (s : Nat) (col : RGBA) (h : ValidCache env c) :
    ValidCache env (renderMdiIcon env c n s col).cache := by
  rw [renderMdiIcon_cache]
  exact getMdiIndex_cache_valid env h

/-! Unfolding lemmas for one iteration of the `draw_icon_sequence` loop. -/

theorem seqStep_err {env : IconEnv} {size : Nat} {spacing : Int} {color : RGBA}
    {anchor direction : String} (st : SeqState) {name m : String}
    (h : (renderMdiIcon env st.cache name size color).result = .error (.valueError m)) :
    seqStep env size spacing color anchor direction st name =
      { st with cache := (renderMdiIcon env st.cache name size color).cache,
                warnings := st.warnings ++ [skipMsg name m] } := by
  simp only [seqStep]
  rw [h]

theorem seqStep_ok {env : IconEnv} {size : Nat} {spacing : Int} {color : RGBA}
    {anchor direction : String} (st : SeqState) {name : String} {g : Glyph}
    (h : (renderMdiIcon env st.cache name size color).result = .ok g) :
    seqStep env size spacing color anchor direction st name =
      { cache := (renderMdiIcon env st.cache name size color).cache,
        img := st.img ++ [⟨g, seqPasteOrigin anchor st.curX st.curY size⟩],
        warnings := st.warnings,
        curX := (seqAdvance direction st.curX st.curY ((size : Int) + spacing)).1,
        curY := (seqAdvance direction st.curX st.curY ((size : Int) + spacing)).2,
        maxX := max st.maxX
          ((seqPasteOrigin anchor st.curX st.curY size).1 + (size : Int)),
        maxY := max st.maxY
          ((seqPasteOrigin anchor st.curX st.curY size).2 + (size : Int)) } := by
  simp only [seqStep]
  rw [h]

/-- C1: for every icon element whose anchor is one of the nine recognized
tags, with resolved position `(x, y)` and icon size `s`, `draw_icon` pastes
the rendered glyph exactly at the origin given by the spec's section 4.4
table with `width = height = s`, all halving being floor division. -/
theorem c1_icon_anchor_table (a : SpecAnchor) (env : IconEnv)
    (cache : Option StrMap) (ctx : Ctx) (e : IconElement) (g : Glyph)
    (ha : e.anchor = some (specAnchorTag a))
    (hr : (renderMdiIcon env cache e.value e.size
      (ctx.resolveColor (colorToken e.color e.fill))).result = .ok g) :
    resImg (drawIcon env cache ctx e).1 =
      some (ctx.img ++
        [⟨g, specPasteOrigin a (ctx.parseX e.x) (ctx.parseY e.y) e.size e.size⟩]) := by
  cases a <;>
    simp [drawIcon, hr, ha, resImg, pasteOriginIcon, specAnchorTag, specPasteOrigin]

/-- C1 witness: a concrete `mm` icon of size 9 at (10, 20) is pasted at
(10 − 9/2, 20 − 9/2) = (6, 16), exhibiting `9 // 2 == 4`. -/
theorem c1_anchor_witness :
    eIconMM.anchor = some (specAnchorTag SpecAnchor.middleMiddle) ∧
    (renderMdiIcon envOk none eIconMM.value eIconMM.size
      (ctx0.resolveColor (colorToken eIconMM.color eIconMM.fill))).result = .ok g0 ∧
    resImg (drawIcon envOk none ctx0 eIconMM).1 = some [⟨g0, (6, 16)⟩] := by
  refine ⟨rfl, rfl, ?_⟩
  have h := c1_icon_anchor_table SpecAnchor.middleMiddle envOk none ctx0 eIconMM g0 rfl rfl
  exact h.trans (congrArg Option.some (by decide))

/-- C2 counterexample: for the caller-supplied name `"mdi:xyz"` (with no
such icon), the error message contains the stripped name `"xyz"` but not
the requested name as given by the caller, `"mdi:xyz"`, refuting the claim
that the message contains the name including its namespace prefix. -/
theorem c2_notfound_counterexample :
    (renderMdiIcon envOk none "mdi:xyz" 9 col0).result =
      .error (.valueError
        "Icon \x27xyz\x27 not found. Search icons at https://pictogrammers.com/library/mdi/") ∧
    strHasRun
      "Icon \x27xyz\x27 not found. Search icons at https://pictogrammers.com/library/mdi/"
      "mdi:xyz" = false ∧
    strHasRun
      "Icon \x27xyz\x27 not found. Search icons at https://pictogrammers.com/library/mdi/"
      "xyz" = true :=
  ⟨rfl, by decide, by decide⟩

/-- C2 amended: for every icon name that does not resolve in the icon index,
rasterization fails with a `ValueError` whose message contains the requested
name after stripping the optional `"mdi:"` prefix, together with the
discovery hint URL. -/
theorem c2_notfound_amended (env : IconEnv) (cache : Option StrMap)
    (name : String) (size : Nat) (color : RGBA) (idx : StrMap)
    (hidx : (getMdiIndex env cache).result = .ok idx)
    (hmiss : idx (stripMdi name) = none ∨ idx (stripMdi name) = some "") :
    (renderMdiIcon env cache name size color).result =
      .error (.valueError (notFoundMsg (stripMdi name))) ∧
    strHasRun (notFoundMsg (stripMdi name)) (stripMdi name) = true ∧
    strHasRun (notFoundMsg (stripMdi name))
      "https://pictogrammers.com/library/mdi/" = true := by
  refine ⟨?_, notFoundMsg_hasName _, notFoundMsg_hasHint _⟩
  unfold renderMdiIcon
  simp only [hidx]
  rcases hmiss with h | h <;> simp [h]

/-- C2 amended witness: the unresolvable name `"mdi:xyz"` against the
concrete index. -/
theorem c2_notfound_witness :
    (getMdiIndex envOk none).result = .ok (buildIndex md0) ∧
    buildIndex md0 (stripMdi "mdi:xyz") = none ∧
    (renderMdiIcon envOk none "mdi:xyz" 9 col0).result =
      .error (.valueError (notFoundMsg (stripMdi "mdi:xyz"))) ∧
    strHasRun (notFoundMsg (stripMdi "mdi:xyz")) (stripMdi "mdi:xyz") = true :=
  ⟨rfl, by decide,
   (c2_notfound_amended envOk none "mdi:xyz" 9 col0 (buildIndex md0) rfl
      (Or.inl (by decide))).1,
   (c2_notfound_amended envOk none "mdi:xyz" 9 col0 (buildIndex md0) rfl
      (Or.inl (by decide))).2.1⟩

/-- C3 counterexample: with a broken font asset, an `icon_sequence` over one
resolvable icon does NOT abort: the font load `ValueError` is caught by the
sequence loop, the icon is skipped with a logged warning, no glyph is pasted
and no error propagates — refuting that asset load failures are never caught
and skipped by a handler. -/
theorem c3_fatal_counterexample :
    (drawIconSequence envFontBroken none ctx0 eSeqOne).1.isOk = true ∧
    resImg (drawIconSequence envFontBroken none ctx0 eSeqOne).1 = some [] ∧
    (drawIconSequence envFontBroken none ctx0 eSeqOne).2.2 =
      ["Skipping icon \x27home\x27: Failed to load MDI font: boom"] :=
  ⟨rfl, by decide, by decide⟩

/-- C3 amended: a font or metadata load failure (like every rasterization
failure, it is a `ValueError`) propagates uncaught from the single-icon
handler `draw_icon`, but inside `draw_icon_sequence` every rasterization
`ValueError` is caught, logged and skipped, so the sequence handler never
propagates it. -/
theorem c3_fatal_amended :
    (∀ (env : IconEnv) (cache : Option StrMap) (ctx : Ctx) (e : IconElement)
       (err : PyErr),
      (renderMdiIcon env cache e.value e.size
        (ctx.resolveColor (colorToken e.color e.fill))).result = .error err →
      (drawIcon env cache ctx e).1 = .error err) ∧
    (∀ (env : IconEnv) (cache : Option StrMap) (ctx : Ctx) (e : IconSeqElement),
      (drawIconSequence env cache ctx e).1.isOk = true) := by
  constructor
  · intro env cache ctx e err h
    simp [drawIcon, h]
  · intro env cache ctx e
    rfl

/-- C3 amended witness: the broken-font environment makes `draw_icon`
propagate the font load `ValueError`. -/
theorem c3_fatal_witness :
    (renderMdiIcon envFontBroken none eIconPlain.value eIconPlain.size
      (ctx0.resolveColor (colorToken eIconPlain.color eIconPlain.fill))).result =
        .error (.valueError "Failed to load MDI font: boom") ∧
    (drawIcon envFontBroken none ctx0 eIconPlain).1 =
        .error (.valueError "Failed to load MDI font: boom") :=
  ⟨rfl, c3_fatal_amended.1 envFontBroken none ctx0 eIconPlain _ rfl⟩

/-- C6: after a first `_get_mdi_index` call that returns an index, any later
call — whatever the metadata source then looks like — returns the same
index, leaves the cache unchanged, and does not invoke the loader. -/
theorem c6_index_idempotent (env : IconEnv) (cache : Option StrMap)
    (idx : StrMap) (h : (getMdiIndex env cache).result = .ok idx)
    (env2 : IconEnv) :
    (getMdiIndex env2 (getMdiIndex env cache).cache).result = .ok idx ∧
    (getMdiIndex env2 (getMdiIndex env cache).cache).loaderInvoked = false ∧
    (getMdiIndex env2 (getMdiIndex env cache).cache).cache =
      (getMdiIndex env cache).cache := by
  rcases cache with _ | i
  · rcases hm : env.metadata with err | md
    · rw [getMdiIndex] at h
      simp [hm] at h
    · have hres : (getMdiIndex env none).result = .ok (buildIndex md) := by
        simp [getMdiIndex, hm]
      have hc : (getMdiIndex env none).cache = some (buildIndex md) := by
        simp [getMdiIndex, hm]
      rw [hres] at h
      injection h with h'
      subst h'
      rw [hc]
      exact ⟨rfl, rfl, rfl⟩
  · have hres : (getMdiIndex env (some i)).result = .ok i := rfl
    rw [hres] at h
    injection h with h'
    subst h'
    exact ⟨rfl, rfl, rfl⟩

/-- C6 witness: after the first build from a good metadata source, a second
call with a now-broken metadata source still returns the cached index
without invoking the loader. -/
theorem c6_index_witness :
    (getMdiIndex envOk none).result = .ok (buildIndex md0) ∧
    (getMdiIndex envMetaBroken (getMdiIndex envOk none).cache).result =
      .ok (buildIndex md0) ∧
    (getMdiIndex envMetaBroken (getMdiIndex envOk none).cache).loaderInvoked =
      false :=
  ⟨rfl, (c6_index_idempotent envOk none (buildIndex md0) rfl envMetaBroken).1,
   (c6_index_idempotent envOk none (buildIndex md0) rfl envMetaBroken).2.1⟩

/-- C7 counterexample: for an element with `color` present but empty and
`fill` present, the token passed to the Color Resolver is the `fill` value,
not the present `color` field the claimed precedence requires. -/
theorem c7_color_counterexample :
    colorToken (some "") (some "red") = "red" ∧
    specColorToken (some "") (some "red") = "" ∧
    colorToken (some "") (some "red") ≠ specColorToken (some "") (some "red") := by
  refine ⟨rfl, rfl, by decide⟩

/-- C7 amended: the drawing color token (as computed by both icon handlers
via `colorToken`) is the element's `color` field when present and non-empty;
otherwise the `fill` field when present (even when empty); otherwise
"black". -/
theorem c7_color_amended (c f : Option String) :
    (∀ s, c = some s → s ≠ "" → colorToken c f = s) ∧
    ((c = none ∨ c = some "") →
      (∀ t, f = some t → colorToken c f = t) ∧
      (f = none → colorToken c f = "black")) := by
  constructor
  · intro s hc hs
    subst hc
    simp [colorToken, hs]
  · rintro (rfl | rfl) <;>
      exact ⟨fun t ht => by subst ht; simp [colorToken],
             fun hf => by subst hf; simp [colorToken]⟩

/-- C7 amended witness: a present non-empty `color` wins over `fill`. -/
theorem c7_color_witness :
    ("blue" : String) ≠ "" ∧ colorToken (some "blue") (some "red") = "blue" :=
  ⟨by decide, (c7_color_amended (some "blue") (some "red")).1 "blue" rfl (by decide)⟩

/-- C8: for an icon element whose anchor is not one of the nine recognized
tags, `draw_icon` does not fail: it logs one unknown-anchor warning and
pastes at the resolved `(x, y)` unchanged (top-left behavior). -/
theorem c8_unknown_anchor (env : IconEnv) (cache : Option StrMap) (ctx : Ctx)
    (e : IconElement) (g : Glyph) (a : String)
    (ha : e.anchor = some a)
    (hna : a ∉ (["mm", "tl", "tr", "bl", "br", "mt", "mb", "lm", "rm"] : List String))
    (hr : (renderMdiIcon env cache e.value e.size
      (ctx.resolveColor (colorToken e.color e.fill))).result = .ok g) :
    resImg (drawIcon env cache ctx e).1 =
      some (ctx.img ++ [⟨g, (ctx.parseX e.x, ctx.parseY e.y)⟩]) ∧
    (drawIcon env cache ctx e).2.2 =
      ["Unknown anchor \x27" ++ a ++ "\x27, using top-left"] := by
  simp only [List.mem_cons, List.not_mem_nil, or_false, not_or] at hna
  obtain ⟨h1, h2, h3, h4, h5, h6, h7, h8, h9⟩ := hna
  constructor <;>
    simp [drawIcon, hr, ha, resImg, pasteOriginIcon, h1, h2, h3, h4, h5, h6, h7, h8, h9]

/-- C8 witness: anchor `"xx"` degrades to top-left with one warning. -/
theorem c8_unknown_anchor_witness :
    eIconXX.anchor = some "xx" ∧
    ("xx" : String) ∉ (["mm", "tl", "tr", "bl", "br", "mt", "mb", "lm", "rm"] : List String) ∧
    resImg (drawIcon envOk none ctx0 eIconXX).1 = some [⟨g0, (3, 5)⟩] ∧
    (drawIcon envOk none ctx0 eIconXX).2.2 =
      ["Unknown anchor \x27xx\x27, using top-left"] := by
  have h := c8_unknown_anchor envOk none ctx0 eIconXX g0 "xx" rfl (by decide) rfl
  exact ⟨rfl, by decide, h.1.trans (congrArg Option.some (by decide)),
         h.2.trans (by decide)⟩

/-! Index-building lemmas for C5. -/

theorem insertKV_self (m : StrMap) (k v : String) : insertKV m k v k = some v := by
  simp [insertKV]

theorem insertKV_other (m : StrMap) (k v q : String) (h : q ≠ k) :
    insertKV m k v q = m q := by
  simp [insertKV, h]

theorem aliasFold_keep {m : StrMap} {k cp : String} (aliases : List String)
    (h : m k = some cp) : aliasFold cp m aliases k = some cp := by
  induction aliases generalizing m with
  | nil => exact h
  | cons a as ih =>
    unfold aliasFold at ih ⊢
    rw [List.foldl_cons]
    apply ih
    by_cases ha : a = ""
    · simp [ha, h]
    · rw [if_neg ha]
      by_cases hk : k = a
      · subst hk; exact insertKV_self _ _ _
      · rw [insertKV_other _ _ _ _ hk]; exact h

theorem aliasFold_mem {k cp : String} (aliases : List String) (m : StrMap)
    (hk : k ∈ aliases) (hne : k ≠ "") : aliasFold cp m aliases k = some cp := by
  induction aliases generalizing m with
  | nil => cases hk
  | cons a as ih =>
    unfold aliasFold at ih ⊢
    rw [List.foldl_cons]
    rcases List.mem_cons.mp hk with rfl | hmem
    · rw [if_neg hne]
      exact aliasFold_keep as (insertKV_self _ _ _)
    · exact ih _ hmem

theorem aliasFold_skip {k cp : String} (aliases : List String) (m : StrMap)
    (h : ∀ a ∈ aliases, a = "" ∨ k ≠ a) :
    aliasFold cp m aliases k = m k := by
  induction aliases generalizing m with
  | nil => rfl
  | cons a as ih =>
    unfold aliasFold at ih ⊢
    rw [List.foldl_cons]
    have has : ∀ b ∈ as, b = "" ∨ k ≠ b := fun b hb => h b (List.mem_cons_of_mem _ hb)
    by_cases ha2 : a = ""
    · rw [if_pos ha2]
      exact ih _ has
    · have hka : k ≠ a := by
        rcases h a (List.mem_cons_self _ _) with ha | hka
        · exact absurd ha ha2
        · exact hka
      rw [if_neg ha2, ih _ has, insertKV_other _ _ _ _ hka]

theorem insertRecord_mem {r : MdiRecord} {name cp : String} (m : StrMap)
    (hn : r.name = some name) (hc : r.codepoint = some cp)
    (hn1 : name ≠ "") (hc1 : cp ≠ "") {k : String}
    (hk : k = name ∨ (k ∈ r.aliases ∧ k ≠ "")) :
    insertRecord m r k = some cp := by
  unfold insertRecord
  rw [hn, hc]
  simp only [hn1, hc1, or_self, if_false]
  rcases hk with rfl | ⟨hmem, hne⟩
  · exact aliasFold_keep _ (insertKV_self _ _ _)
  · exact aliasFold_mem _ _ hmem hne

theorem insertRecord_not_mem {r : MdiRecord} (m : StrMap) {k : String}
    (h : k ∉ recordKeys r) : insertRecord m r k = m k := by
  rcases hn : r.name with _ | name <;> rcases hc : r.codepoint with _ | cp <;>
    simp only [insertRecord, recordKeys, hn, hc] at h ⊢
  by_cases hec : name = "" ∨ cp = ""
  · rw [if_pos hec]
  · rw [if_neg hec]
    rw [if_neg hec] at h
    simp only [List.mem_cons, not_or] at h
    have hfa : ∀ a ∈ r.aliases, a = "" ∨ k ≠ a := by
      intro a ha
      by_cases hae : a = ""
      · exact Or.inl hae
      · refine Or.inr fun hka => h.2 ?_
        subst hka
        exact List.mem_filter.mpr ⟨ha, by simpa using hae⟩
    rw [aliasFold_skip _ _ hfa, insertKV_other _ _ _ _ h.1]

theorem insertRecord_bad {r : MdiRecord} (m : StrMap)
    (h : goodRecordB r = false) : insertRecord m r = m := by
  rcases hn : r.name with _ | name <;> rcases hc : r.codepoint with _ | cp <;>
    simp only [insertRecord, goodRecordB, hn, hc] at h ⊢
  by_cases hec : name = "" ∨ cp = ""
  · rw [if_pos hec]
  · rw [if_neg hec] at h
    cases h

theorem foldl_insertRecord_not_mem (l : List MdiRecord) (m : StrMap)
    {k : String} (h : ∀ r ∈ l, k ∉ recordKeys r) :
    l.foldl insertRecord m k = m k := by
  induction l generalizing m with
  | nil => rfl
  | cons r rs ih =>
    rw [List.foldl_cons]
    rw [ih _ (fun r' hr' => h r' (List.mem_cons_of_mem _ hr'))]
    exact insertRecord_not_mem m (h r (List.mem_cons_self _ _))

/-- C5: the index built on first call maps, for every metadata record having
both a (truthy) name and codepoint, that name and each truthy alias to the
record's codepoint (given that no key is contributed twice, which is the
spec's uniqueness invariant on the metadata); records missing a name or a
codepoint contribute nothing to the built index; and every indexed name maps
to exactly one codepoint. -/
theorem c5_index_build :
    (∀ (md : List MdiRecord), (md.flatMap recordKeys).Nodup →
      ∀ r ∈ md, ∀ name cp, r.name = some name → r.codepoint = some cp →
        name ≠ "" → cp ≠ "" →
        buildIndex md name = some cp ∧
        ∀ a ∈ r.aliases, a ≠ "" → buildIndex md a = some cp) ∧
    (∀ (pre : List MdiRecord) (r : MdiRecord) (post : List MdiRecord),
      goodRecordB r = false →
      buildIndex (pre ++ r :: post) = buildIndex (pre ++ post)) ∧
    (∀ (md : List MdiRecord) (k c1 c2 : String),
      buildIndex md k = some c1 → buildIndex md k = some c2 → c1 = c2) := by
  refine ⟨?_, ?_, ?_⟩
  · intro md hnd r hr name cp hn hc hn1 hc1
    have key : ∀ k, (k = name ∨ (k ∈ r.aliases ∧ k ≠ "")) →
        buildIndex md k = some cp := by
      intro k hk
      obtain ⟨pre, post, rfl⟩ := List.append_of_mem hr
      unfold buildIndex
      rw [List.foldl_append, List.foldl_cons]
      have hnd2 : (recordKeys r ++ post.flatMap recordKeys).Nodup := by
        rw [List.flatMap_append, List.flatMap_cons] at hnd
        exact List.Nodup.of_append_right hnd
      have hdisj := List.disjoint_of_nodup_append hnd2
      have hkmem : k ∈ recordKeys r := by
        simp only [recordKeys, hn, hc]
        rw [if_neg (not_or.mpr ⟨hn1, hc1⟩)]
        rcases hk with rfl | ⟨hmem, hne⟩
        · exact List.mem_cons_self _ _
        · exact List.mem_cons_of_mem _ (List.mem_filter.mpr ⟨hmem, by simpa using hne⟩)
      have hnotpost : ∀ r' ∈ post, k ∉ recordKeys r' := by
        intro r' hr' hkr'
        exact hdisj hkmem (List.mem_flatMap_of_mem hr' hkr')
      rw [foldl_insertRecord_not_mem post _ hnotpost]
      exact insertRecord_mem _ hn hc hn1 hc1 hk
    exact ⟨key name (Or.inl rfl), fun a ha hne => key a (Or.inr ⟨ha, hne⟩)⟩
  · intro pre r post h
    unfold buildIndex
    rw [List.foldl_append, List.foldl_cons, insertRecord_bad _ h, ← List.foldl_append]
  · intro md k c1 c2 h1 h2
    rw [h1] at h2
    exact Option.some.inj h2

/-- C5 witness: a concrete metadata list with one good record (name, alias)
and one record with a missing name. -/
theorem c5_index_witness :
    (md5.flatMap recordKeys).Nodup ∧
    goodRecordB mdBad = false ∧
    buildIndex md5 "home" = some "F02DC" ∧
    buildIndex md5 "house" = some "F02DC" ∧
    buildIndex md5 = buildIndex [mdHome] := by
  have h1 := c5_index_build.1 md5 (by decide) mdHome (by decide) "home" "F02DC"
    rfl rfl (by decide) (by decide)
  exact ⟨by decide, by decide, h1.1, h1.2 "house" (by decide) (by decide),
    c5_index_build.2.1 [mdHome] mdBad [] (by decide)⟩

/-! Fold lemmas for the `draw_icon_sequence` loop. -/

theorem seqFold_allFail (env : IconEnv) (size : Nat) (spacing : Int)
    (color : RGBA) (anchor direction : String) :
    ∀ (icons : List String) (st : SeqState), ValidCache env st.cache →
      (∀ n ∈ icons, ∃ m,
        (renderMdiIcon env none n size color).result = .error (.valueError m)) →
      (icons.foldl (seqStep env size spacing color anchor direction) st).img = st.img ∧
      (icons.foldl (seqStep env size spacing color anchor direction) st).curX = st.curX ∧
      (icons.foldl (seqStep env size spacing color anchor direction) st).curY = st.curY ∧
      (icons.foldl (seqStep env size spacing color anchor direction) st).maxX = st.maxX ∧
      (icons.foldl (seqStep env size spacing color anchor direction) st).maxY = st.maxY := by
  intro icons
  induction icons with
  | nil => exact fun st _ _ => ⟨rfl, rfl, rfl, rfl, rfl⟩
  | cons n rest ih =>
    intro st hv hf
    obtain ⟨m, hm⟩ := hf n (List.mem_cons_self _ _)
    have hres : (renderMdiIcon env st.cache n size color).result =
        .error (.valueError m) := by
      rw [renderMdiIcon_validCache n size color hv]
      exact hm
    rw [List.foldl_cons, seqStep_err _ hres]
    have hv' : ValidCache env (renderMdiIcon env st.cache n size color).cache :=
      renderMdiIcon_cache_valid env n size color hv
    have h := ih { st with cache := (renderMdiIcon env st.cache n size color).cache,
                           warnings := st.warnings ++ [skipMsg n m] }
      hv' (fun b hb => hf b (List.mem_cons_of_mem _ hb))
    simpa using h

theorem seqFold_noAdvance (env : IconEnv) (size : Nat) (spacing : Int)
    (color : RGBA) (anchor : String) {d : String}
    (hnd : d ∉ (["right", "left", "up", "down"] : List String)) :
    ∀ (icons : List String) (st : SeqState),
      (icons.foldl (seqStep env size spacing color anchor d) st).curX = st.curX ∧
      (icons.foldl (seqStep env size spacing color anchor d) st).curY = st.curY ∧
      ∀ q ∈ (icons.foldl (seqStep env size spacing color anchor d) st).img,
        q ∈ st.img ∨ q.pos = seqPasteOrigin anchor st.curX st.curY size := by
  have hadv : ∀ x y s, seqAdvance d x y s = (x, y) := by
    intro x y s
    simp only [List.mem_cons, List.not_mem_nil, or_false, not_or] at hnd
    obtain ⟨h1, h2, h3, h4⟩ := hnd
    simp [seqAdvance, h1, h2, h3, h4]
  intro icons
  induction icons with
  | nil => exact fun st => ⟨rfl, rfl, fun q hq => Or.inl hq⟩
  | cons n rest ih =>
    intro st
    rw [List.foldl_cons]
    rcases hr : (renderMdiIcon env st.cache n size color).result with err | g
    · rcases err with ⟨m⟩
      rw [seqStep_err _ hr]
      have h := ih { st with cache := (renderMdiIcon env st.cache n size color).cache,
                             warnings := st.warnings ++ [skipMsg n m] }
      exact ⟨h.1, h.2.1, fun q hq => h.2.2 q hq⟩
    · rw [seqStep_ok _ hr]
      rw [hadv]
      have h := ih
        { cache := (renderMdiIcon env st.cache n size color).cache,
          img := st.img ++ [⟨g, seqPasteOrigin anchor st.curX st.curY size⟩],
          warnings := st.warnings,
          curX := st.curX, curY := st.curY,
          maxX := max st.maxX
            ((seqPasteOrigin anchor st.curX st.curY size).1 + (size : Int)),
          maxY := max st.maxY
            ((seqPasteOrigin anchor st.curX st.curY size).2 + (size : Int)) }
      refine ⟨h.1, h.2.1, fun q hq => ?_⟩
      rcases h.2.2 q hq with hmem | hpos
      · rcases List.mem_append.mp hmem with hl | hr2
        · exact Or.inl hl
        · rcases List.mem_singleton.mp hr2 with rfl
          exact Or.inr rfl
      · exact Or.inr hpos

/-- C9: an `icon_sequence` whose icons list is empty or all of whose icons
fail to rasterize leaves the canvas unchanged and sets `pos_y` to the
resolved start y (the bound trackers start at the start position). -/
theorem c9_seq_unchanged (env : IconEnv) (cache : Option StrMap) (ctx : Ctx)
    (e : IconSeqElement) (hv : ValidCache env cache)
    (hf : ∀ n ∈ e.icons, ∃ m,
      (renderMdiIcon env none n e.size
        (ctx.resolveColor (colorToken e.color e.fill))).result =
          .error (.valueError m)) :
    resImg (drawIconSequence env cache ctx e).1 = some ctx.img ∧
    resPosY (drawIconSequence env cache ctx e).1 = some (ctx.parseY e.y) := by
  have h := seqFold_allFail env e.size (e.spacing.getD ((e.size / 4 : Nat) : Int))
    (ctx.resolveColor (colorToken e.color e.fill))
    (e.anchor.getD "mm") (e.direction.getD "right")
    e.icons
    ⟨cache, ctx.img, [], ctx.parseX e.x, ctx.parseY e.y, ctx.parseX e.x, ctx.parseY e.y⟩
    hv hf
  simp only [drawIconSequence, resImg, resPosY]
  exact ⟨congrArg some h.1, congrArg some h.2.2.2.2⟩

/-- C9 witness: a sequence whose single icon name is unresolvable leaves the
canvas empty and sets `pos_y` to the start y (7). -/
theorem c9_seq_witness :
    ValidCache envOk none ∧
    eSeqFail.icons = ["nope"] ∧
    resImg (drawIconSequence envOk none ctx0 eSeqFail).1 = some [] ∧
    resPosY (drawIconSequence envOk none ctx0 eSeqFail).1 = some 7 := by
  have hf : ∀ n ∈ eSeqFail.icons, ∃ m,
      (renderMdiIcon envOk none n eSeqFail.size
        (ctx0.resolveColor (colorToken eSeqFail.color eSeqFail.fill))).result =
          .error (.valueError m) := by
    intro n hn
    have hn' : n = "nope" := by simpa [eSeqFail] using hn
    subst hn'
    exact ⟨notFoundMsg "nope", rfl⟩
  have h := c9_seq_unchanged envOk none ctx0 eSeqFail (Or.inl rfl) hf
  exact ⟨Or.inl rfl, rfl, h.1, h.2⟩

/-- C10: an `icon_sequence` whose direction is not one of right/left/up/down
raises no error and never advances the cursor: every pasted glyph lands at
the origin computed from the start position. -/
theorem c10_unknown_direction (env : IconEnv) (cache : Option StrMap)
    (ctx : Ctx) (e : IconSeqElement) (d : String)
    (hd : e.direction = some d)
    (hnd : d ∉ (["right", "left", "up", "down"] : List String)) :
    (drawIconSequence env cache ctx e).1.isOk = true ∧
    ∀ q ∈ (resImg (drawIconSequence env cache ctx e).1).getD [],
      q ∈ ctx.img ∨
      q.pos = seqPasteOrigin (e.anchor.getD "mm")
        (ctx.parseX e.x) (ctx.parseY e.y) e.size := by
  refine ⟨rfl, ?_⟩
  have h := (seqFold_noAdvance env e.size
    (e.spacing.getD ((e.size / 4 : Nat) : Int))
    (ctx.resolveColor (colorToken e.color e.fill))
    (e.anchor.getD "mm") hnd
    e.icons
    ⟨cache, ctx.img, [], ctx.parseX e.x, ctx.parseY e.y, ctx.parseX e.x, ctx.parseY e.y⟩).2.2
  simp only [drawIconSequence, hd, Option.getD_some, resImg]
  exact fun q hq => h q hq

/-- C10 witness: direction `"diag"` on a two-icon sequence; both glyphs land
at the start-derived origin (3, 5) and the handler succeeds. -/
theorem c10_direction_witness :
    eSeqDiag.direction = some "diag" ∧
    ("diag" : String) ∉ (["right", "left", "up", "down"] : List String) ∧
    (drawIconSequence envOk none ctx0 eSeqDiag).1.isOk = true ∧
    ((⟨g0, (3, 5)⟩ : Paste) ∈ ctx0.img ∨
      (⟨g0, (3, 5)⟩ : Paste).pos = seqPasteOrigin "tl" 3 5 9) := by
  have h := c10_unknown_direction envOk none ctx0 eSeqDiag "diag" rfl (by decide)
  refine ⟨rfl, by decide, h.1, ?_⟩
  have h2 := h.2 ⟨g0, (3, 5)⟩ (by decide)
  exact h2

/-- C4: an `icon_sequence` over exactly one resolvable and one unresolvable
icon name renders exactly one glyph, logs exactly one skip warning (for the
failed name), and does not raise. -/
theorem c4_seq_mixed (env : IconEnv) (cache : Option StrMap) (ctx : Ctx)
    (e : IconSeqElement) (a b : String) (g : Glyph) (m : String)
    (hv : ValidCache env cache)
    (hicons : e.icons = [a, b])
    (hone :
      ((renderMdiIcon env none a e.size
          (ctx.resolveColor (colorToken e.color e.fill))).result = .ok g ∧
       (renderMdiIcon env none b e.size
          (ctx.resolveColor (colorToken e.color e.fill))).result =
            .error (.valueError m)) ∨
      ((renderMdiIcon env none a e.size
          (ctx.resolveColor (colorToken e.color e.fill))).result =
            .error (.valueError m) ∧
       (renderMdiIcon env none b e.size
          (ctx.resolveColor (colorToken e.color e.fill))).result = .ok g)) :
    (drawIconSequence env cache ctx e).1.isOk = true ∧
    (∃ q, resImg (drawIconSequence env cache ctx e).1 = some (ctx.img ++ [q])) ∧
    ((renderMdiIcon env none a e.size
        (ctx.resolveColor (colorToken e.color e.fill))).result = .ok g →
      (drawIconSequence env cache ctx e).2.2 = [skipMsg b m]) ∧
    ((renderMdiIcon env none b e.size
        (ctx.resolveColor (colorToken e.color e.fill))).result = .ok g →
      (drawIconSequence env cache ctx e).2.2 = [skipMsg a m]) := by
  simp only [drawIconSequence, hicons, List.foldl_cons, List.foldl_nil, resImg]
  rcases hone with ⟨ha, hb⟩ | ⟨ha, hb⟩
  · have ha' : (renderMdiIcon env cache a e.size
        (ctx.resolveColor (colorToken e.color e.fill))).result = .ok g := by
      rw [renderMdiIcon_validCache a e.size _ hv]
      exact ha
    rw [seqStep_ok ⟨cache, ctx.img, [], ctx.parseX e.x, ctx.parseY e.y,
      ctx.parseX e.x, ctx.parseY e.y⟩ ha']
    have hv1 : ValidCache env (renderMdiIcon env cache a e.size
        (ctx.resolveColor (colorToken e.color e.fill))).cache :=
      renderMdiIcon_cache_valid env a e.size _ hv
    have hb' : (renderMdiIcon env (renderMdiIcon env cache a e.size
        (ctx.resolveColor (colorToken e.color e.fill))).cache b e.size
        (ctx.resolveColor (colorToken e.color e.fill))).result =
          .error (.valueError m) := by
      rw [renderMdiIcon_validCache b e.size _ hv1]
      exact hb
    rw [seqStep_err _ hb']
    refine ⟨rfl, ⟨_, rfl⟩, fun _ => rfl, fun hb2 => ?_⟩
    rw [hb] at hb2
    simp at hb2
  · have ha' : (renderMdiIcon env cache a e.size
        (ctx.resolveColor (colorToken e.color e.fill))).result =
          .error (.valueError m) := by
      rw [renderMdiIcon_validCache a e.size _ hv]
      exact ha
    rw [seqStep_err ⟨cache, ctx.img, [], ctx.parseX e.x, ctx.parseY e.y,
      ctx.parseX e.x, ctx.parseY e.y⟩ ha']
    have hv1 : ValidCache env (renderMdiIcon env cache a e.size
        (ctx.resolveColor (colorToken e.color e.fill))).cache :=
      renderMdiIcon_cache_valid env a e.size _ hv
    have hb' : (renderMdiIcon env (renderMdiIcon env cache a e.size
        (ctx.resolveColor (colorToken e.color e.fill))).cache b e.size
        (ctx.resolveColor (colorToken e.color e.fill))).result = .ok g := by
      rw [renderMdiIcon_validCache b e.size _ hv1]
      exact hb
    rw [seqStep_ok _ hb']
    refine ⟨rfl, ⟨_, rfl⟩, fun ha2 => ?_, fun _ => rfl⟩
    rw [ha] at ha2
    simp at ha2

/-- C4 witness: `["home", "nope"]` — `"home"` resolves, so exactly one skip
warning is logged and it names the failed icon `"nope"`. -/
theorem c4_seq_witness :
    eSeqMixed.icons = ["home", "nope"] ∧
    (renderMdiIcon envOk none "home" eSeqMixed.size
      (ctx0.resolveColor (colorToken eSeqMixed.color eSeqMixed.fill))).result =
        .ok g0 ∧
    (drawIconSequence envOk none ctx0 eSeqMixed).1.isOk = true ∧
    (drawIconSequence envOk none ctx0 eSeqMixed).2.2 =
      [skipMsg "nope" (notFoundMsg "nope")] := by
  have h := c4_seq_mixed envOk none ctx0 eSeqMixed "home" "nope" g0
    (notFoundMsg "nope") (Or.inl rfl) rfl (Or.inl ⟨rfl, rfl⟩)
  exact ⟨rfl, rfl, h.1, h.2.2.1 rfl⟩

end DrawCustom
